import Mathlib

/-!
Verification of the FTX WebSocket connector (`src/ws/ftx_ws_client.rs` and
its duplicate revision `src/ws/ftx_websocket.rs`, which shares the same
subscribe / unsubscribe / next_response / add_to_buffer / poll_next logic).

The embedding models the client state (`channels`, `buf`, `is_authenticated`),
the inbound transport as a list of already-decoded text frames, and the
outbound control frames actually sent.  Keepalive pings and the login frame
are time-driven sends that carry no claim-relevant state and are not recorded.
Payload leaf types that come from `crate::common` (absent from the sources:
`Symbol`, `Id`, `Coin`, `Side`, `Trade`, `OrderInfo`) are modelled as opaque
but inhabited records; no claim depends on their internal fields.
-/

namespace Ftx

abbrev Symbol := String

abbrev Id := Nat

abbrev Coin := String

inductive Side where
  | buy
  | sell
  deriving DecidableEq, Repr

/-- The `Trade` record from the absent `crate::common` module: an opaque
payload carried one-per-element of a `trades` frame. -/
structure Trade where
  id : Id
  price : ℚ
  size : ℚ
  deriving DecidableEq, Repr

/-- `Ticker` from `src/ws/models.rs` (Decimal fields as ℚ, timestamp as ℚ). -/
structure Ticker where
  bid : ℚ
  ask : ℚ
  bid_size : ℚ
  ask_size : ℚ
  last : ℚ
  time : ℚ
  deriving DecidableEq, Repr

inductive OrderbookAction where
  | Partial
  | Update
  deriving DecidableEq, Repr

/-- `OrderbookData` from `src/ws/models.rs`. -/
structure OrderbookData where
  action : OrderbookAction
  bids : List (ℚ × ℚ)
  asks : List (ℚ × ℚ)
  checksum : Nat
  time : ℚ
  deriving DecidableEq, Repr

inductive Liquidity where
  | Maker
  | Taker
  deriving DecidableEq, Repr

/-- `Fill` from `src/ws/models.rs` (types from the absent `common` module
modelled as above). -/
structure Fill where
  id : Id
  market : Option Symbol
  future : Option Symbol
  base_currency : Option Coin
  quote_currency : Option Coin
  type : String
  side : Side
  price : ℚ
  size : ℚ
  order_id : Option Id
  trade_id : Option Id
  time : ℚ
  fee : ℚ
  fee_rate : ℚ
  fee_currency : Coin
  liquidity : Liquidity
  deriving DecidableEq, Repr

/-- `OrderInfo` from the absent `crate::common` module: opaque record. -/
structure OrderInfo where
  id : Id
  deriving DecidableEq, Repr

/-- `WsChannel` (named `Channel` in `models.rs`): the subscription channels. -/
inductive WsChannel where
  | Orderbook (symbol : Symbol)
  | Trades (symbol : Symbol)
  | Ticker (symbol : Symbol)
  | Fills
  | Orders
  deriving DecidableEq, Repr

/-- `WsMessageType` (named `Type` in `models.rs`): the inbound frame tag. -/
inductive WsMessageType where
  | Subscribed
  | Unsubscribed
  | Update
  | Error
  | Partial
  | Pong
  | Info
  deriving DecidableEq, Repr

/-- `WsResponseData` (named `ResponseData` in `models.rs`): the typed payload. -/
inductive WsResponseData where
  | Ticker (t : Ticker)
  | Trades (trades : List Trade)
  | OrderbookData (o : OrderbookData)
  | Fill (f : Fill)
  | Order (o : OrderInfo)
  deriving DecidableEq, Repr

/-- `WsResponse` (named `Response` in `models.rs`): a decoded inbound frame. -/
structure WsResponse where
  market : Option Symbol
  type : WsMessageType
  data : Option WsResponseData
  deriving DecidableEq, Repr

/-- `EventData` (named `Data` in `models.rs`): the event variants yielded to
the consumer; a `Trades` payload is split into one `Trade` event per trade. -/
inductive EventData where
  | Trade (t : Trade)
  | OrderbookData (o : OrderbookData)
  | Fill (f : Fill)
  | Ticker (t : Ticker)
  | Order (o : OrderInfo)
  deriving DecidableEq, Repr

/-- `WsError` from `src/ws/error.rs`.  The wrapped transport / serde / time
errors carry no claim-relevant payload and are modelled as bare tags. -/
inductive WsError where
  | IncorrectChecksum
  | MissingPartial
  | NotSubscribedToThisChannel (c : WsChannel)
  | MissingSubscriptionConfirmation
  | SocketNotAuthenticated
  | Tungstenite
  | Serde
  | SystemTime
  deriving DecidableEq, Repr

/-- The claim-relevant fields of `FtxWsClient` (`ftx_ws_client.rs:20-28`):
the desired channel vector, the delivery buffer (`VecDeque` as a list,
`push_back` = append, `pop_front` = head), and the authentication flag. -/
structure FtxWsClient where
  channels : List WsChannel
  buf : List (Option Symbol × EventData)
  is_authenticated : Bool
  deriving DecidableEq, Repr

/-- An outbound subscribe/unsubscribe control frame as built at
`ftx_ws_client.rs:156-167`. -/
structure ControlFrame where
  op : String
  channel : String
  market : String
  deriving DecidableEq, Repr

/-- The client together with its transport: the remaining inbound decoded
text frames and the control frames sent so far. -/
structure WsState where
  client : FtxWsClient
  inbound : List WsResponse
  sent : List ControlFrame
  deriving DecidableEq, Repr

/-- The authenticated-only test used at `ftx_ws_client.rs:101`:
`channel == &WsChannel::Fills || channel == &WsChannel::Orders`. -/
def requiresAuth (c : WsChannel) : Bool :=
  c == WsChannel.Fills || c == WsChannel.Orders

/-- The wire name and market string of a channel, from the `match` at
`ftx_ws_client.rs:148-154`. -/
def channelWire (c : WsChannel) : String × String :=
  match c with
  | WsChannel.Orderbook symbol => ("orderbook", symbol)
  | WsChannel.Trades symbol => ("trades", symbol)
  | WsChannel.Ticker symbol => ("ticker", symbol)
  | WsChannel.Fills => ("fills", "")
  | WsChannel.Orders => ("orders", "")

/-- The control frame built and sent at `ftx_ws_client.rs:156-167`. -/
def mkControlFrame (subscribe : Bool) (c : WsChannel) : ControlFrame :=
  { op := if subscribe then "subscribe" else "unsubscribe"
    channel := (channelWire c).1
    market := (channelWire c).2 }

/-- The events a payload contributes to the delivery buffer, exactly as
`add_to_buffer` pushes them (`ftx_ws_client.rs:219-245`): a `Trades` payload
yields one event per trade; every other payload yields one event. -/
def eventsOfData (market : Option Symbol) : WsResponseData → List (Option Symbol × EventData)
  | WsResponseData.Trades trades => trades.map (fun t => (market, EventData.Trade t))
  | WsResponseData.OrderbookData o => [(market, EventData.OrderbookData o)]
  | WsResponseData.Fill f => [(market, EventData.Fill f)]
  | WsResponseData.Ticker t => [(market, EventData.Ticker t)]
  | WsResponseData.Order o => [(market, EventData.Order o)]

/-- `add_to_buffer` (`ftx_ws_client.rs:219-245`): a frame without data is
ignored; otherwise its events are pushed to the back of the buffer. -/
def add_to_buffer (c : FtxWsClient) (r : WsResponse) : FtxWsClient :=
  match r.data with
  | none => c
  | some d => { c with buf := c.buf ++ eventsOfData r.market d }

/-- `next_response` (`ftx_ws_client.rs:197-217`) restricted to its inbound
consumption: it returns the first decoded frame that is not `Pong`-tagged,
silently discarding `Pong` frames, together with the remaining inbound
frames; `none` when the script has no further non-Pong frame (the real loop
would keep suspending on the transport).  The keepalive tick inside the same
`select!` sends a ping and consumes nothing. -/
def next_response : List WsResponse → Option (WsResponse × List WsResponse)
  | [] => none
  | r :: rs =>
    if r.type = WsMessageType.Pong then next_response rs else some (r, rs)

/-- Whether a frame completes the pending control request, from the `match`
arms at `ftx_ws_client.rs:172-188`: only the tag is inspected — `Subscribed`
completes a subscribe, `Unsubscribed` completes an unsubscribe. -/
def matchesConfirm (subscribe : Bool) (r : WsResponse) : Bool :=
  if subscribe then r.type == WsMessageType.Subscribed
  else r.type == WsMessageType.Unsubscribed

/-- Outcome of the bounded confirmation wait. -/
inductive ConfirmOutcome where
  | confirmed (st : WsState)
  | timeout (st : WsState)
  | starved (st : WsState)
  deriving DecidableEq, Repr

/-- The `for _ in 0..100` confirmation wait (`ftx_ws_client.rs:170-189`) with
the iteration count as fuel: each iteration takes the next non-Pong frame; a
tag-matching frame completes the wait, any other frame is passed to
`add_to_buffer`; exhausting the bound is `timeout`
(`Err(MissingSubscriptionConfirmation)`); `starved` marks a script with no
further frame, where the real code would suspend. -/
def confirmLoop (subscribe : Bool) : Nat → WsState → ConfirmOutcome
  | 0, st => ConfirmOutcome.timeout st
  | Nat.succ n, st =>
    match next_response st.inbound with
    | none => ConfirmOutcome.starved st
    | some (r, rest) =>
      if matchesConfirm subscribe r then
        ConfirmOutcome.confirmed { st with inbound := rest }
      else
        confirmLoop subscribe n
          { st with client := add_to_buffer st.client r, inbound := rest }

/-- Result of a subscribe/unsubscribe call. -/
inductive OpResult where
  | ok (st : WsState)
  | err (e : WsError) (st : WsState)
  | starved (st : WsState)
  deriving DecidableEq, Repr

/-- `subscribe_or_unsubscribe` (`ftx_ws_client.rs:136-195`): channels are
processed one at a time in input order; for each, the control frame is sent
and the bounded confirmation wait runs; a timeout aborts the whole call with
`MissingSubscriptionConfirmation`. -/
def subscribe_or_unsubscribe (subscribe : Bool) :
    List WsChannel → WsState → OpResult
  | [], st => OpResult.ok st
  | c :: cs, st =>
    let st1 : WsState := { st with sent := st.sent ++ [mkControlFrame subscribe c] }
    match confirmLoop subscribe 100 st1 with
    | ConfirmOutcome.confirmed st2 => subscribe_or_unsubscribe subscribe cs st2
    | ConfirmOutcome.timeout st2 =>
        OpResult.err WsError.MissingSubscriptionConfirmation st2
    | ConfirmOutcome.starved st2 => OpResult.starved st2

/-- The precheck-and-push loop at the head of `subscribe`
(`ftx_ws_client.rs:100-107`): each channel is checked (authenticated-only
channels on an unauthenticated client abort with `SocketNotAuthenticated`,
leaving earlier pushes in place) and then pushed onto the desired vector. -/
def authCheckPush (isAuth : Bool) :
    List WsChannel → List WsChannel → Option WsError × List WsChannel
  | [], acc => (none, acc)
  | c :: cs, acc =>
    if requiresAuth c && !isAuth then (some WsError.SocketNotAuthenticated, acc)
    else authCheckPush isAuth cs (acc ++ [c])

/-- `subscribe` (`ftx_ws_client.rs:99-112`). -/
def subscribe (channels : List WsChannel) (st : WsState) : OpResult :=
  match authCheckPush st.client.is_authenticated channels st.client.channels with
  | (some e, chans) =>
      OpResult.err e { st with client := { st.client with channels := chans } }
  | (none, chans) =>
      subscribe_or_unsubscribe true channels
        { st with client := { st.client with channels := chans } }

/-- `unsubscribe` (`ftx_ws_client.rs:114-125`): first every requested channel
must be in the desired vector (`NotSubscribedToThisChannel` on the first that
is not); then the handshake runs; on success `retain` removes every
occurrence of each requested channel. -/
def unsubscribe (channels : List WsChannel) (st : WsState) : OpResult :=
  match channels.find? (fun c => !(st.client.channels.contains c)) with
  | some c => OpResult.err (WsError.NotSubscribedToThisChannel c) st
  | none =>
    match subscribe_or_unsubscribe false channels st with
    | OpResult.ok st1 =>
        OpResult.ok
          { st1 with client := { st1.client with
              channels := st1.client.channels.filter
                (fun c => !(channels.contains c)) } }
    | r => r

/-- `unsubscribe_all` (`ftx_ws_client.rs:127-134`). -/
def unsubscribe_all (st : WsState) : OpResult :=
  match unsubscribe st.client.channels st with
  | OpResult.ok st1 =>
      OpResult.ok { st1 with client := { st1.client with channels := [] } }
  | r => r

/-- The events a whole frame contributes to the data path: `Pong` frames are
discarded by `next_response` before `add_to_buffer` can see them, every other
frame contributes the events of its payload (frames without data contribute
nothing). -/
def eventsOfFrame (r : WsResponse) : List (Option Symbol × EventData) :=
  if r.type = WsMessageType.Pong then []
  else
    match r.data with
    | none => []
    | some d => eventsOfData r.market d

/-- `poll_next` of the `Stream` implementation (`ftx_ws_client.rs:263-285`):
pop the front of the buffer if non-empty; otherwise fetch the next decoded
frame, run it through `add_to_buffer`, and loop.  `none` is `Poll::Pending`:
the script holds no further non-Pong frame. -/
def poll_next (st : WsState) :
    Option ((Option Symbol × EventData) × WsState) :=
  match hb : st.client.buf with
  | x :: bs => some (x, { st with client := { st.client with buf := bs } })
  | [] =>
    match hn : next_response st.inbound with
    | none => none
    | some (r, rest) =>
      poll_next { st with client := add_to_buffer st.client r, inbound := rest }
termination_by st.inbound.length
decreasing_by
  have step : ∀ (l : List WsResponse) (a : WsResponse) (back : List WsResponse),
      next_response l = some (a, back) → back.length < l.length := by
    intro l
    induction l with
    | nil => intro a back h; simp [next_response] at h
    | cons q qs ih =>
      intro a back h
      simp only [next_response] at h
      by_cases hp : q.type = WsMessageType.Pong
      · rw [if_pos hp] at h
        exact Nat.lt_trans (ih _ _ h) (Nat.lt_succ_self _)
      · rw [if_neg hp] at h
        injection h with h2
        injection h2 with he hback
        rw [← hback]
        exact Nat.lt_succ_self _
  exact step _ _ _ hn

/-- The first `n` events the pull stream yields from a state: `poll_next`
iterated, stopping on `Poll::Pending`.  Each yielded event is handed to the
consumer exactly once, so this list is the delivery order of the stream. -/
def takeEvents : Nat → WsState → List (Option Symbol × EventData)
  | 0, _ => []
  | Nat.succ n, st =>
    match poll_next st with
    | none => []
    | some (x, st1) => x :: takeEvents n st1

/-- The externally visible actions of one iteration of `event_loop`
(`ftx_ws_client.rs:252-258`), as a function of what `ws.next().await`
returned.  The vocabulary includes the reconnection actions the spec
describes (`callConnect`, `sleepRetry`) so that their absence is statable;
the body of `event_loop` is
`let (symbol, event) = ws.next().await.expect("No data received").unwrap();
 ws.event_handler.on_event(event, symbol);`. -/
inductive LoopAction where
  | callOnEvent (event : EventData) (symbol : Option Symbol)
  | panicExpectNoData
  | panicUnwrapErr (e : WsError)
  | callConnect
  | sleepRetry
  deriving DecidableEq, Repr

/-- One iteration of `event_loop` (`ftx_ws_client.rs:252-258`): a `None` from
the stream panics via `expect("No data received")`; an `Err` from the stream
panics via `unwrap()`; an `Ok` event is handed to the event handler.  No arm
invokes `connect()` or sleeps and retries. -/
def event_loop_iter
    (next : Option (Except WsError (Option Symbol × EventData))) :
    List LoopAction :=
  match next with
  | none => [LoopAction.panicExpectNoData]
  | some (Except.error e) => [LoopAction.panicUnwrapErr e]
  | some (Except.ok (symbol, event)) => [LoopAction.callOnEvent event symbol]

/-- A consumer-visible operation on the client, for stating invariants over
operation sequences. -/
inductive WsOp where
  | sub (cs : List WsChannel)
  | unsub (cs : List WsChannel)
  | unsubAll
  deriving DecidableEq, Repr

/-- Dispatch of one consumer operation to the corresponding client call. -/
def applyOp (st : WsState) : WsOp → OpResult
  | WsOp.sub cs => subscribe cs st
  | WsOp.unsub cs => unsubscribe cs st
  | WsOp.unsubAll => unsubscribe_all st

/-- The inbound script of a whole control call, one segment per control
frame sent: the frames observed while that request's confirmation is
pending, then the confirming frame itself. -/
def waitScript : List (List WsResponse × WsResponse) → List WsResponse
  | [] => []
  | (pre, conf) :: ws => pre ++ conf :: waitScript ws

theorem next_response_length :
    ∀ {l : List WsResponse} {r rest},
      next_response l = some (r, rest) → rest.length < l.length := by
  intro l
  induction l with
  | nil => intro r rest h; simp [next_response] at h
  | cons a as ih =>
    intro r rest h
    simp only [next_response] at h
    by_cases hp : a.type = WsMessageType.Pong
    · rw [if_pos hp] at h
      exact Nat.lt_trans (ih h) (Nat.lt_succ_self _)
    · rw [if_neg hp] at h
      injection h with h2
      injection h2 with he hrest
      rw [← hrest]
      exact Nat.lt_succ_self _

theorem next_response_none_pong :
    ∀ {l : List WsResponse}, next_response l = none →
      ∀ r ∈ l, r.type = WsMessageType.Pong := by
  intro l
  induction l with
  | nil => intro _ r hr; simp at hr
  | cons a as ih =>
    intro h r hr
    simp only [next_response] at h
    by_cases hp : a.type = WsMessageType.Pong
    · rw [if_pos hp] at h
      rcases List.mem_cons.mp hr with hre | hrm
      · rw [hre]; exact hp
      · exact ih h r hrm
    · rw [if_neg hp] at h; cases h

theorem next_response_some_spec :
    ∀ {l : List WsResponse} {r rest}, next_response l = some (r, rest) →
      ∃ pre, l = pre ++ r :: rest ∧ (∀ p ∈ pre, p.type = WsMessageType.Pong) ∧
        r.type ≠ WsMessageType.Pong := by
  intro l
  induction l with
  | nil => intro r rest h; simp [next_response] at h
  | cons a as ih =>
    intro r rest h
    simp only [next_response] at h
    by_cases hp : a.type = WsMessageType.Pong
    · rw [if_pos hp] at h
      obtain ⟨pre, hpre, hall, hnp⟩ := ih h
      refine ⟨a :: pre, by simp [hpre], ?_, hnp⟩
      intro p hpm
      rcases List.mem_cons.mp hpm with hpe | hpm2
      · rw [hpe]; exact hp
      · exact hall p hpm2
    · rw [if_neg hp] at h
      injection h with h2
      injection h2 with he hrest
      exact ⟨[], by simp [← he, ← hrest], by simp, by rw [← he]; exact hp⟩

theorem next_response_pong_cons {p : WsResponse} (hp : p.type = WsMessageType.Pong)
    (l : List WsResponse) : next_response (p :: l) = next_response l := by
  simp [next_response, hp]

theorem add_to_buffer_eq {r : WsResponse} (c : FtxWsClient)
    (h : r.type ≠ WsMessageType.Pong) :
    add_to_buffer c r = { c with buf := c.buf ++ eventsOfFrame r } := by
  cases c with
  | mk channels buf auth =>
    cases hd : r.data with
    | none => simp [add_to_buffer, eventsOfFrame, hd, h]
    | some d => simp [add_to_buffer, eventsOfFrame, hd, h]

theorem poll_next_buf_cons {st : WsState} {x bs}
    (hb : st.client.buf = x :: bs) :
    poll_next st = some (x, { st with client := { st.client with buf := bs } }) := by
  obtain ⟨⟨chans, buf, auth⟩, inbound, sent⟩ := st
  simp only [] at hb
  subst hb
  rw [poll_next]

theorem poll_next_nil_none {st : WsState}
    (hb : st.client.buf = []) (hn : next_response st.inbound = none) :
    poll_next st = none := by
  obtain ⟨⟨chans, buf, auth⟩, inbound, sent⟩ := st
  simp only [] at hb hn
  subst hb
  rw [poll_next]
  rw [hn]

theorem poll_next_nil_some {st : WsState} {r rest}
    (hb : st.client.buf = []) (hn : next_response st.inbound = some (r, rest)) :
    poll_next st =
      poll_next { st with client := add_to_buffer st.client r, inbound := rest } := by
  obtain ⟨⟨chans, buf, auth⟩, inbound, sent⟩ := st
  simp only [] at hb hn
  subst hb
  rw [poll_next]
  rw [hn]

theorem flatMap_events_of_pong {l : List WsResponse}
    (h : ∀ r ∈ l, r.type = WsMessageType.Pong) :
    l.flatMap eventsOfFrame = [] := by
  induction l with
  | nil => rfl
  | cons a as ih =>
    have ha : eventsOfFrame a = [] := by
      simp [eventsOfFrame, h a (List.mem_cons_self a as)]
    simp [ha, ih (fun r hr => h r (List.mem_cons_of_mem a hr))]

theorem takeEvents_formula_aux :
    ∀ k n (st : WsState), n + st.inbound.length ≤ k →
      takeEvents n st =
        (st.client.buf ++ st.inbound.flatMap eventsOfFrame).take n := by
  intro k
  induction k with
  | zero =>
    intro n st h
    have hn0 : n = 0 := by omega
    subst hn0
    rfl
  | succ k ih =>
    intro n st h
    cases n with
    | zero => rfl
    | succ m =>
      cases hb : st.client.buf with
      | cons x bs =>
        have hpoll := poll_next_buf_cons hb
        have hih := ih m { st with client := { st.client with buf := bs } } (by
          simp only []
          omega)
        simp only [takeEvents, hpoll, hih, hb]
        simp
      | nil =>
        cases hn : next_response st.inbound with
        | none =>
          have hpoll := poll_next_nil_none hb hn
          have hflat := flatMap_events_of_pong (next_response_none_pong hn)
          simp [takeEvents, hpoll, hb, hflat]
        | some pair =>
          obtain ⟨r, rest⟩ := pair
          obtain ⟨pre, hdec, hpong, hnp⟩ := next_response_some_spec hn
          have hlen := next_response_length hn
          have hstep : takeEvents (m + 1) st =
              takeEvents (m + 1)
                { st with client := add_to_buffer st.client r, inbound := rest } := by
            simp only [takeEvents, poll_next_nil_some hb hn]
          have hih := ih (m + 1)
            { st with client := add_to_buffer st.client r, inbound := rest } (by
              simp only []
              omega)
          rw [hstep, hih]
          have hadd := add_to_buffer_eq st.client hnp
          have hpre : pre.flatMap eventsOfFrame = [] := flatMap_events_of_pong hpong
          simp [hadd, hb, hdec, hpre]

/-- The events the pull stream delivers: the buffered events first, then the
events of the remaining inbound frames in wire-arrival order, each exactly
once (`Pong` frames and frames without data contribute nothing; a `Trades`
payload contributes one event per trade). -/
theorem takeEvents_formula (n : Nat) (st : WsState) :
    takeEvents n st =
      (st.client.buf ++ st.inbound.flatMap eventsOfFrame).take n :=
  takeEvents_formula_aux (n + st.inbound.length) n st (Nat.le_refl _)

theorem matchesConfirm_ne_pong {subscribe : Bool} {r : WsResponse}
    (h : matchesConfirm subscribe r = true) : r.type ≠ WsMessageType.Pong := by
  intro hp
  cases subscribe <;> simp [matchesConfirm, hp] at h

theorem confirmLoop_state_inv (subscribe : Bool) :
    ∀ (fuel : Nat) (st st' : WsState),
      (confirmLoop subscribe fuel st = ConfirmOutcome.confirmed st' ∨
        confirmLoop subscribe fuel st = ConfirmOutcome.timeout st' ∨
        confirmLoop subscribe fuel st = ConfirmOutcome.starved st') →
      st'.client.channels = st.client.channels ∧
      st'.client.is_authenticated = st.client.is_authenticated ∧
      st'.sent = st.sent ∧
      ∃ extra, st'.client.buf = st.client.buf ++ extra := by
  intro fuel
  induction fuel with
  | zero =>
    intro st st' h
    rcases h with h | h | h
    · exact absurd h (by simp [confirmLoop])
    · simp only [confirmLoop] at h
      injection h with h2
      rw [← h2]
      exact ⟨rfl, rfl, rfl, ⟨[], by simp⟩⟩
    · exact absurd h (by simp [confirmLoop])
  | succ n ih =>
    intro st st' h
    simp only [confirmLoop] at h
    cases hn : next_response st.inbound with
    | none =>
      rw [hn] at h
      rcases h with h | h | h
      · exact absurd h (by simp)
      · exact absurd h (by simp)
      · injection h with h2
        rw [← h2]
        exact ⟨rfl, rfl, rfl, ⟨[], by simp⟩⟩
    | some pair =>
      obtain ⟨r, rest⟩ := pair
      rw [hn] at h
      dsimp only at h
      obtain ⟨pre, hdec, hpong, hnp⟩ := next_response_some_spec hn
      by_cases hm : matchesConfirm subscribe r = true
      · rw [if_pos hm] at h
        rcases h with h | h | h
        · injection h with h2
          rw [← h2]
          exact ⟨rfl, rfl, rfl, ⟨[], by simp⟩⟩
        · exact absurd h (by simp)
        · exact absurd h (by simp)
      · rw [if_neg hm] at h
        have hrec := ih _ st' h
        have hadd := add_to_buffer_eq st.client hnp
        obtain ⟨hch, hau, hsent, extra, hbuf⟩ := hrec
        rw [hadd] at hch hau hbuf
        refine ⟨hch, hau, hsent, ⟨eventsOfFrame r ++ extra, ?_⟩⟩
        rw [hbuf]
        simp

theorem confirmLoop_confirmed_sound (subscribe : Bool) :
    ∀ (fuel : Nat) (st st' : WsState),
      confirmLoop subscribe fuel st = ConfirmOutcome.confirmed st' →
      ∃ pre r rest, st.inbound = pre ++ r :: rest ∧ st'.inbound = rest ∧
        matchesConfirm subscribe r = true ∧
        ∀ p ∈ pre, p.type = WsMessageType.Pong ∨ matchesConfirm subscribe p = false := by
  intro fuel
  induction fuel with
  | zero => intro st st' h; exact absurd h (by simp [confirmLoop])
  | succ n ih =>
    intro st st' h
    simp only [confirmLoop] at h
    cases hn : next_response st.inbound with
    | none => rw [hn] at h; exact absurd h (by simp)
    | some pair =>
      obtain ⟨r, rest⟩ := pair
      rw [hn] at h
      dsimp only at h
      obtain ⟨pre0, hdec, hpong, hnp⟩ := next_response_some_spec hn
      by_cases hm : matchesConfirm subscribe r = true
      · rw [if_pos hm] at h
        injection h with h2
        subst h2
        exact ⟨pre0, r, rest, hdec, rfl, hm, fun p hp => Or.inl (hpong p hp)⟩
      · rw [if_neg hm] at h
        obtain ⟨pre1, r1, rest1, hdec1, hinb1, hm1, hall1⟩ := ih _ st' h
        have hdec2 : rest = pre1 ++ r1 :: rest1 := hdec1
        refine ⟨pre0 ++ r :: pre1, r1, rest1, ?_, hinb1, hm1, ?_⟩
        · rw [hdec, hdec2]; simp
        · intro p hp
          rcases List.mem_append.mp hp with hp1 | hp1
          · exact Or.inl (hpong p hp1)
          · rcases List.mem_cons.mp hp1 with hpe | hp2
            · rw [hpe]
              refine Or.inr ?_
              simp only [Bool.not_eq_true] at hm
              exact hm
            · exact hall1 p hp2

theorem confirmLoop_timeout_of (subscribe : Bool) :
    ∀ (fs : List WsResponse) (st : WsState) (rest : List WsResponse),
      st.inbound = fs ++ rest →
      (∀ r ∈ fs, r.type ≠ WsMessageType.Pong ∧ matchesConfirm subscribe r = false) →
      confirmLoop subscribe fs.length st =
        ConfirmOutcome.timeout
          { st with
              client := { st.client with buf := st.client.buf ++ fs.flatMap eventsOfFrame }
              inbound := rest } := by
  intro fs
  induction fs with
  | nil =>
    intro st rest hin hall
    obtain ⟨⟨chans, buf, auth⟩, inbound, sent⟩ := st
    simp only [List.nil_append] at hin
    subst hin
    simp [confirmLoop]
  | cons f fs ih =>
    intro st rest hin hall
    have hf := hall f (List.mem_cons_self f fs)
    simp only [List.length_cons, confirmLoop]
    have hnr : next_response st.inbound = some (f, fs ++ rest) := by
      rw [hin, List.cons_append]
      simp [next_response, hf.1]
    rw [hnr]
    dsimp only
    rw [if_neg (by simp [hf.2])]
    have hih := ih
      { st with client := add_to_buffer st.client f, inbound := fs ++ rest } rest
      rfl (fun r hr => hall r (List.mem_cons_of_mem f hr))
    rw [hih]
    congr 1
    rw [add_to_buffer_eq st.client hf.1]
    simp [List.append_assoc]

theorem confirmLoop_confirmed_of (subscribe : Bool) :
    ∀ (pre : List WsResponse) (fuel : Nat) (st : WsState) (conf : WsResponse)
      (rest : List WsResponse),
      st.inbound = pre ++ conf :: rest →
      (∀ p ∈ pre, matchesConfirm subscribe p = false) →
      matchesConfirm subscribe conf = true →
      (pre.filter (fun r => r.type != WsMessageType.Pong)).length < fuel →
      confirmLoop subscribe fuel st =
        ConfirmOutcome.confirmed
          { st with
              client := { st.client with buf := st.client.buf ++ pre.flatMap eventsOfFrame }
              inbound := rest } := by
  intro pre
  induction pre with
  | nil =>
    intro fuel st conf rest hin hall hconf hlt
    obtain ⟨m, rfl⟩ : ∃ m, fuel = m + 1 := ⟨fuel - 1, by omega⟩
    simp only [confirmLoop]
    have hnr : next_response st.inbound = some (conf, rest) := by
      rw [hin, List.nil_append]
      simp [next_response, matchesConfirm_ne_pong hconf]
    rw [hnr]
    dsimp only
    rw [if_pos hconf]
    congr 1
    simp
  | cons p ps ih =>
    intro fuel st conf rest hin hall hconf hlt
    obtain ⟨m, rfl⟩ : ∃ m, fuel = m + 1 := ⟨fuel - 1, by omega⟩
    by_cases hp : p.type = WsMessageType.Pong
    · have hnr : next_response st.inbound = next_response (ps ++ conf :: rest) := by
        rw [hin, List.cons_append]
        exact next_response_pong_cons hp _
      have hih := ih (m + 1) { st with inbound := ps ++ conf :: rest } conf rest rfl
        (fun q hq => hall q (List.mem_cons_of_mem p hq)) hconf (by
          have hflt : (List.filter (fun r => r.type != WsMessageType.Pong) (p :: ps)).length =
              (List.filter (fun r => r.type != WsMessageType.Pong) ps).length := by
            simp [List.filter_cons, hp]
          omega)
      have hflat : (p :: ps).flatMap eventsOfFrame = ps.flatMap eventsOfFrame := by
        simp [eventsOfFrame, hp]
      simp only [confirmLoop] at hih ⊢
      rw [hnr, hflat]
      cases hq : next_response (ps ++ conf :: rest) with
      | none =>
        exfalso
        have := next_response_none_pong hq conf (by
          exact List.mem_append.mpr (Or.inr (List.mem_cons_self conf rest)))
        exact matchesConfirm_ne_pong hconf this
      | some pair =>
        rw [hq] at hih
        dsimp only at hih ⊢
        exact hih
    · have hnr : next_response st.inbound = some (p, ps ++ conf :: rest) := by
        rw [hin, List.cons_append]
        simp [next_response, hp]
      have hpf : matchesConfirm subscribe p = false := hall p (List.mem_cons_self p ps)
      simp only [confirmLoop]
      rw [hnr]
      dsimp only
      rw [if_neg (by simp [hpf])]
      have hih := ih m
        { st with client := add_to_buffer st.client p, inbound := ps ++ conf :: rest }
        conf rest rfl (fun q hq => hall q (List.mem_cons_of_mem p hq)) hconf (by
          have hflt : (List.filter (fun r => r.type != WsMessageType.Pong) (p :: ps)).length =
              (List.filter (fun r => r.type != WsMessageType.Pong) ps).length + 1 := by
            simp [List.filter_cons, hp]
          omega)
      rw [hih]
      congr 1
      rw [add_to_buffer_eq st.client hp]
      simp [List.append_assoc]

theorem authCheckPush_none_snd {isAuth : Bool} :
    ∀ {cs acc acc' : List WsChannel},
      authCheckPush isAuth cs acc = (none, acc') → acc' = acc ++ cs := by
  intro cs
  induction cs with
  | nil =>
    intro acc acc' h
    simp only [authCheckPush] at h
    injection h with h1 h2
    rw [← h2]
    simp
  | cons c cs ih =>
    intro acc acc' h
    simp only [authCheckPush] at h
    by_cases hc : (requiresAuth c && !isAuth) = true
    · rw [if_pos hc] at h
      injection h with h1 h2
      cases h1
    · rw [if_neg hc] at h
      rw [ih h]
      simp

theorem authCheckPush_some_fst {isAuth : Bool} :
    ∀ {cs acc acc' : List WsChannel} {e : WsError},
      authCheckPush isAuth cs acc = (some e, acc') →
      e = WsError.SocketNotAuthenticated := by
  intro cs
  induction cs with
  | nil =>
    intro acc acc' e h
    simp only [authCheckPush] at h
    injection h with h1 h2
    cases h1
  | cons c cs ih =>
    intro acc acc' e h
    simp only [authCheckPush] at h
    by_cases hc : (requiresAuth c && !isAuth) = true
    · rw [if_pos hc] at h
      injection h with h1 h2
      injection h1 with h3
      exact h3.symm
    · rw [if_neg hc] at h
      exact ih h

theorem authCheckPush_ok_of {isAuth : Bool} :
    ∀ {cs : List WsChannel} (acc : List WsChannel),
      (∀ c ∈ cs, (requiresAuth c && !isAuth) = false) →
      authCheckPush isAuth cs acc = (none, acc ++ cs) := by
  intro cs
  induction cs with
  | nil => intro acc _; simp [authCheckPush]
  | cons c cs ih =>
    intro acc hall
    simp only [authCheckPush]
    rw [if_neg (by simp [hall c (List.mem_cons_self c cs)])]
    rw [ih (acc ++ [c]) (fun q hq => hall q (List.mem_cons_of_mem c hq))]
    simp

theorem authCheckPush_err_of {isAuth : Bool} :
    ∀ (pre : List WsChannel) (c : WsChannel) (post acc : List WsChannel),
      (∀ p ∈ pre, (requiresAuth p && !isAuth) = false) →
      (requiresAuth c && !isAuth) = true →
      authCheckPush isAuth (pre ++ c :: post) acc =
        (some WsError.SocketNotAuthenticated, acc ++ pre) := by
  intro pre
  induction pre with
  | nil =>
    intro c post acc _ hc
    simp only [List.nil_append, authCheckPush]
    rw [if_pos hc]
    simp
  | cons p ps ih =>
    intro c post acc hall hc
    simp only [List.cons_append, authCheckPush]
    rw [if_neg (by simp [hall p (List.mem_cons_self p ps)])]
    have hrec := ih c post (acc ++ [p]) (fun q hq => hall q (List.mem_cons_of_mem p hq)) hc
    exact hrec.trans (by simp)

theorem sou_state_inv (subscribe : Bool) :
    ∀ (cs : List WsChannel) (st st' : WsState),
      (subscribe_or_unsubscribe subscribe cs st = OpResult.ok st' ∨
        (∃ e, subscribe_or_unsubscribe subscribe cs st = OpResult.err e st') ∨
        subscribe_or_unsubscribe subscribe cs st = OpResult.starved st') →
      st'.client.channels = st.client.channels ∧
      st'.client.is_authenticated = st.client.is_authenticated ∧
      (∃ extra, st'.client.buf = st.client.buf ++ extra) ∧
      (∃ fr, st'.sent = st.sent ++ fr) := by
  intro cs
  induction cs with
  | nil =>
    intro st st' h
    rcases h with h | ⟨e, h⟩ | h
    · simp only [subscribe_or_unsubscribe] at h
      injection h with h2
      subst h2
      exact ⟨rfl, rfl, ⟨[], by simp⟩, ⟨[], by simp⟩⟩
    · exact absurd h (by simp [subscribe_or_unsubscribe])
    · exact absurd h (by simp [subscribe_or_unsubscribe])
  | cons c cs ih =>
    intro st st' h
    simp only [subscribe_or_unsubscribe] at h
    cases ho : confirmLoop subscribe 100
        { st with sent := st.sent ++ [mkControlFrame subscribe c] } with
    | confirmed st2 =>
      rw [ho] at h
      dsimp only at h
      obtain ⟨hch2, hau2, hsent2, e2, hbuf2⟩ :=
        confirmLoop_state_inv subscribe 100 _ st2 (Or.inl ho)
      obtain ⟨hch1, hau1, ⟨e1, hbuf1⟩, ⟨f1, hsent1⟩⟩ := ih st2 st' h
      refine ⟨hch1.trans hch2, hau1.trans hau2, ⟨e2 ++ e1, ?_⟩, ⟨[mkControlFrame subscribe c] ++ f1, ?_⟩⟩
      · rw [hbuf1, hbuf2]
        simp
      · rw [hsent1, hsent2]
        simp
    | timeout st2 =>
      rw [ho] at h
      dsimp only at h
      obtain ⟨hch2, hau2, hsent2, e2, hbuf2⟩ :=
        confirmLoop_state_inv subscribe 100 _ st2 (Or.inr (Or.inl ho))
      rcases h with h | ⟨e, h⟩ | h
      · exact absurd h (by simp)
      · injection h with he h2
        subst h2
        exact ⟨hch2, hau2, ⟨e2, hbuf2⟩, ⟨[mkControlFrame subscribe c], hsent2⟩⟩
      · exact absurd h (by simp)
    | starved st2 =>
      rw [ho] at h
      dsimp only at h
      obtain ⟨hch2, hau2, hsent2, e2, hbuf2⟩ :=
        confirmLoop_state_inv subscribe 100 _ st2 (Or.inr (Or.inr ho))
      rcases h with h | ⟨e, h⟩ | h
      · exact absurd h (by simp)
      · exact absurd h (by simp)
      · injection h with h2
        subst h2
        exact ⟨hch2, hau2, ⟨e2, hbuf2⟩, ⟨[mkControlFrame subscribe c], hsent2⟩⟩

theorem sou_err_missing (subscribe : Bool) :
    ∀ (cs : List WsChannel) (st : WsState) (e : WsError) (st' : WsState),
      subscribe_or_unsubscribe subscribe cs st = OpResult.err e st' →
      e = WsError.MissingSubscriptionConfirmation := by
  intro cs
  induction cs with
  | nil => intro st e st' h; exact absurd h (by simp [subscribe_or_unsubscribe])
  | cons c cs ih =>
    intro st e st' h
    simp only [subscribe_or_unsubscribe] at h
    cases ho : confirmLoop subscribe 100
        { st with sent := st.sent ++ [mkControlFrame subscribe c] } with
    | confirmed st2 =>
      rw [ho] at h
      dsimp only at h
      exact ih _ _ _ h
    | timeout st2 =>
      rw [ho] at h
      dsimp only at h
      injection h with he h2
      exact he.symm
    | starved st2 =>
      rw [ho] at h
      dsimp only at h
      cases h

theorem subscribe_ok_spec {cs : List WsChannel} {st st' : WsState}
    (h : subscribe cs st = OpResult.ok st') :
    st'.client.channels = st.client.channels ++ cs ∧
    st'.client.is_authenticated = st.client.is_authenticated ∧
    (∃ extra, st'.client.buf = st.client.buf ++ extra) := by
  unfold subscribe at h
  cases hac : authCheckPush st.client.is_authenticated cs st.client.channels with
  | mk eopt chans =>
    rw [hac] at h
    cases eopt with
    | some e =>
      dsimp only at h
      cases h
    | none =>
      dsimp only at h
      have hch := authCheckPush_none_snd hac
      obtain ⟨h1, h2, h3, _⟩ := sou_state_inv true cs _ st' (Or.inl h)
      exact ⟨h1.trans hch, h2, h3⟩

theorem subscribe_err_missing_spec {cs : List WsChannel} {st st' : WsState}
    (h : subscribe cs st = OpResult.err WsError.MissingSubscriptionConfirmation st') :
    st'.client.channels = st.client.channels ++ cs ∧
    st'.client.is_authenticated = st.client.is_authenticated ∧
    (∃ extra, st'.client.buf = st.client.buf ++ extra) := by
  unfold subscribe at h
  cases hac : authCheckPush st.client.is_authenticated cs st.client.channels with
  | mk eopt chans =>
    rw [hac] at h
    cases eopt with
    | some e2 =>
      dsimp only at h
      injection h with he h2
      rw [authCheckPush_some_fst hac] at he
      cases he
    | none =>
      dsimp only at h
      have hch := authCheckPush_none_snd hac
      obtain ⟨h1, h2, h3, _⟩ := sou_state_inv true cs _ st' (Or.inr (Or.inl ⟨_, h⟩))
      exact ⟨h1.trans hch, h2, h3⟩

theorem unsubscribe_ok_spec {cs : List WsChannel} {st st' : WsState}
    (h : unsubscribe cs st = OpResult.ok st') :
    st'.client.channels =
      st.client.channels.filter (fun c => !(cs.contains c)) ∧
    st'.client.is_authenticated = st.client.is_authenticated ∧
    (∃ extra, st'.client.buf = st.client.buf ++ extra) := by
  unfold unsubscribe at h
  cases hf : cs.find? (fun c => !(st.client.channels.contains c)) with
  | some c =>
    rw [hf] at h
    dsimp only at h
    cases h
  | none =>
    rw [hf] at h
    dsimp only at h
    cases hs : subscribe_or_unsubscribe false cs st with
    | ok st1 =>
      rw [hs] at h
      dsimp only at h
      injection h with h2
      obtain ⟨h1, hau, hbuf, _⟩ := sou_state_inv false cs st st1 (Or.inl hs)
      subst h2
      exact ⟨by rw [h1], hau, hbuf⟩
    | err e st1 =>
      rw [hs] at h
      dsimp only at h
      cases h
    | starved st1 =>
      rw [hs] at h
      dsimp only at h
      cases h

theorem unsubscribe_err_missing_spec {cs : List WsChannel} {st st' : WsState}
    (h : unsubscribe cs st = OpResult.err WsError.MissingSubscriptionConfirmation st') :
    st'.client.channels = st.client.channels ∧
    st'.client.is_authenticated = st.client.is_authenticated ∧
    (∃ extra, st'.client.buf = st.client.buf ++ extra) := by
  unfold unsubscribe at h
  cases hf : cs.find? (fun c => !(st.client.channels.contains c)) with
  | some c =>
    rw [hf] at h
    dsimp only at h
    injection h with he h2
    cases he
  | none =>
    rw [hf] at h
    dsimp only at h
    cases hs : subscribe_or_unsubscribe false cs st with
    | ok st1 =>
      rw [hs] at h
      dsimp only at h
      cases h
    | err e st1 =>
      rw [hs] at h
      dsimp only at h
      injection h with he h2
      subst h2
      obtain ⟨h1, hau, hbuf, _⟩ := sou_state_inv false cs st st1 (Or.inr (Or.inl ⟨e, hs⟩))
      exact ⟨h1, hau, hbuf⟩
    | starved st1 =>
      rw [hs] at h
      dsimp only at h
      cases h

theorem unsubscribe_all_ok_channels {st st' : WsState}
    (h : unsubscribe_all st = OpResult.ok st') : st'.client.channels = [] := by
  unfold unsubscribe_all at h
  cases hu : unsubscribe st.client.channels st with
  | ok st1 =>
    rw [hu] at h
    dsimp only at h
    injection h with h2
    rw [← h2]
  | err e st1 =>
    rw [hu] at h
    dsimp only at h
    cases h
  | starved st1 =>
    rw [hu] at h
    dsimp only at h
    cases h

theorem authCheckPush_err_exists :
    ∀ {cs : List WsChannel} (acc : List WsChannel),
      (∃ c ∈ cs, requiresAuth c = true) →
      ∃ acc', authCheckPush false cs acc =
        (some WsError.SocketNotAuthenticated, acc') := by
  intro cs
  induction cs with
  | nil =>
    intro acc hmem
    obtain ⟨c, hc, _⟩ := hmem
    cases hc
  | cons c cs ih =>
    intro acc hmem
    by_cases hc : requiresAuth c = true
    · exact ⟨acc, by simp [authCheckPush, hc]⟩
    · obtain ⟨d, hd, hq⟩ := hmem
      rcases List.mem_cons.mp hd with hde | hdm
      · rw [hde] at hq
        exact absurd hq hc
      · obtain ⟨acc', ha⟩ := ih (acc ++ [c]) ⟨d, hdm, hq⟩
        refine ⟨acc', ?_⟩
        simp only [authCheckPush]
        rw [if_neg (by simp [hc])]
        exact ha

theorem sou_single_timeout (subscribe : Bool) (c : WsChannel) (st : WsState)
    (fs rest : List WsResponse)
    (hin : st.inbound = fs ++ rest) (hlen : fs.length = 100)
    (hfs : ∀ r ∈ fs, r.type ≠ WsMessageType.Pong ∧ matchesConfirm subscribe r = false) :
    subscribe_or_unsubscribe subscribe [c] st =
      OpResult.err WsError.MissingSubscriptionConfirmation
        { client := { st.client with buf := st.client.buf ++ fs.flatMap eventsOfFrame }
          inbound := rest
          sent := st.sent ++ [mkControlFrame subscribe c] } := by
  simp only [subscribe_or_unsubscribe]
  have hto := confirmLoop_timeout_of subscribe fs
    { st with sent := st.sent ++ [mkControlFrame subscribe c] } rest hin hfs
  rw [hlen] at hto
  rw [hto]

theorem sou_single_confirmed (subscribe : Bool) (c : WsChannel) (st : WsState)
    (pre rest : List WsResponse) (conf : WsResponse)
    (hin : st.inbound = pre ++ conf :: rest)
    (hpre : ∀ r ∈ pre, matchesConfirm subscribe r = false)
    (hconf : matchesConfirm subscribe conf = true)
    (hcnt : (pre.filter (fun r => r.type != WsMessageType.Pong)).length < 100) :
    subscribe_or_unsubscribe subscribe [c] st =
      OpResult.ok
        { client := { st.client with buf := st.client.buf ++ pre.flatMap eventsOfFrame }
          inbound := rest
          sent := st.sent ++ [mkControlFrame subscribe c] } := by
  simp only [subscribe_or_unsubscribe]
  have hco := confirmLoop_confirmed_of subscribe pre 100
    { st with sent := st.sent ++ [mkControlFrame subscribe c] } conf rest hin hpre hconf hcnt
  rw [hco]

theorem sou_script_confirmed (subscribe : Bool) :
    ∀ (cs : List WsChannel) (ws : List (List WsResponse × WsResponse))
      (st : WsState) (rest : List WsResponse),
      ws.length = cs.length →
      st.inbound = waitScript ws ++ rest →
      (∀ pc ∈ ws, (∀ r ∈ pc.1, matchesConfirm subscribe r = false) ∧
        matchesConfirm subscribe pc.2 = true ∧
        (pc.1.filter (fun r => r.type != WsMessageType.Pong)).length < 100) →
      subscribe_or_unsubscribe subscribe cs st =
        OpResult.ok
          { client := { st.client with
              buf := st.client.buf ++ (ws.flatMap Prod.fst).flatMap eventsOfFrame }
            inbound := rest
            sent := st.sent ++ cs.map (mkControlFrame subscribe) } := by
  intro cs
  induction cs with
  | nil =>
    intro ws st rest hlen hin hpre
    have hws : ws = [] := List.length_eq_zero.mp (by simpa using hlen)
    subst hws
    simp only [waitScript, List.nil_append] at hin
    simp only [subscribe_or_unsubscribe]
    congr 1
    obtain ⟨⟨chans, buf, auth⟩, inbound, sent⟩ := st
    simp only [] at hin
    subst hin
    simp
  | cons c cs ih =>
    intro ws st rest hlen hin hpre
    cases ws with
    | nil => simp at hlen
    | cons pc ws =>
      obtain ⟨pre, conf⟩ := pc
      have hh := hpre (pre, conf) (List.mem_cons_self _ _)
      simp only [subscribe_or_unsubscribe]
      have hco := confirmLoop_confirmed_of subscribe pre 100
        { st with sent := st.sent ++ [mkControlFrame subscribe c] } conf
        (waitScript ws ++ rest)
        (by
          show st.inbound = pre ++ conf :: (waitScript ws ++ rest)
          rw [hin]
          simp [waitScript])
        hh.1 hh.2.1 hh.2.2
      rw [hco]
      have hih := ih ws
        { client := { st.client with buf := st.client.buf ++ pre.flatMap eventsOfFrame }
          inbound := waitScript ws ++ rest
          sent := st.sent ++ [mkControlFrame subscribe c] }
        rest (by simpa using hlen) rfl
        (fun q hq => hpre q (List.mem_cons_of_mem _ hq))
      refine hih.trans ?_
      congr 1
      simp [List.append_assoc]

/-- Claim C1, amended: the bounded confirmation wait completes only on an
inbound response whose tag matches the request direction (`Subscribed` for a
subscribe, `Unsubscribed` for an unsubscribe); the channel and market of the
confirmation are not inspected, so any frame with the matching tag —
whatever channel or market it identifies — completes the wait, and every
non-Pong frame consumed before it had failed the tag test. -/
theorem claim1_confirm_tag_only (subscribe : Bool) (fuel : Nat) (st st' : WsState)
    (h : confirmLoop subscribe fuel st = ConfirmOutcome.confirmed st') :
    ∃ pre r rest, st.inbound = pre ++ r :: rest ∧ st'.inbound = rest ∧
      matchesConfirm subscribe r = true ∧
      ∀ p ∈ pre, p.type = WsMessageType.Pong ∨ matchesConfirm subscribe p = false :=
  confirmLoop_confirmed_sound subscribe fuel st st' h

/-- Witness for C1: a concrete confirmed wait, decomposed by the theorem. -/
theorem claim1_confirm_tag_only_witness :
    ∃ pre r rest,
      ({ client := { channels := [], buf := [], is_authenticated := false }
         inbound := [{ market := some "ETH/USD", type := WsMessageType.Subscribed, data := none }]
         sent := [] } : WsState).inbound = pre ++ r :: rest ∧
      ({ client := { channels := [], buf := [], is_authenticated := false }
         inbound := []
         sent := [] } : WsState).inbound = rest ∧
      matchesConfirm true r = true ∧
      ∀ p ∈ pre, p.type = WsMessageType.Pong ∨ matchesConfirm true p = false :=
  claim1_confirm_tag_only true 100 _ _ (by rfl)

/-- Counterexample for C1 as stated: a `Subscribed` frame for market
`ETH/USD` completes the wait for the `orderbook`/`BTC/USD` request — the
whole subscribe call succeeds and the mismatched frame was consumed as the
confirmation. -/
theorem claim1_counterexample :
    subscribe [WsChannel.Orderbook "BTC/USD"]
      { client := { channels := [], buf := [], is_authenticated := false }
        inbound := [{ market := some "ETH/USD", type := WsMessageType.Subscribed, data := none }]
        sent := [] } =
      OpResult.ok
        { client := { channels := [WsChannel.Orderbook "BTC/USD"], buf := [], is_authenticated := false }
          inbound := []
          sent := [{ op := "subscribe", channel := "orderbook", market := "BTC/USD" }] } ∧
    (some "ETH/USD" : Option Symbol) ≠ some "BTC/USD" :=
  ⟨rfl, by decide⟩

/-- Claim C2, amended: on a transport-level error surfaced by the stream,
the running event loop panics through `unwrap()` (terminating the spawned
task); it never invokes `connect()` and never sleeps and retries, whatever
the stream produced. -/
theorem claim2_event_loop_no_reconnect :
    (∀ e : WsError,
      event_loop_iter (some (Except.error e)) = [LoopAction.panicUnwrapErr e]) ∧
    (∀ next, LoopAction.callConnect ∉ event_loop_iter next ∧
      LoopAction.sleepRetry ∉ event_loop_iter next) := by
  constructor
  · intro e
    rfl
  · intro next
    cases next with
    | none => simp [event_loop_iter]
    | some r =>
      cases r with
      | error e => simp [event_loop_iter]
      | ok p =>
        obtain ⟨s, ev⟩ := p
        simp [event_loop_iter]

/-- Witness for C2 at a concrete transport error. -/
theorem claim2_event_loop_no_reconnect_witness :
    event_loop_iter (some (Except.error WsError.Tungstenite)) =
      [LoopAction.panicUnwrapErr WsError.Tungstenite] :=
  claim2_event_loop_no_reconnect.1 WsError.Tungstenite

/-- Counterexample for C2 as stated: on a transport error the event loop
iteration panics and contains no `connect()` invocation and no retry. -/
theorem claim2_counterexample :
    event_loop_iter (some (Except.error WsError.Serde)) =
      [LoopAction.panicUnwrapErr WsError.Serde] ∧
    LoopAction.callConnect ∉ event_loop_iter (some (Except.error WsError.Serde)) ∧
    LoopAction.sleepRetry ∉ event_loop_iter (some (Except.error WsError.Serde)) :=
  ⟨rfl, by decide, by decide⟩

/-- Claim C3: subscribing to a list containing `Fills` or `Orders` on an
unauthenticated client fails with `SocketNotAuthenticated`; the returned
state differs from the input state at most in the desired channel vector —
in particular `sent` and `inbound` are untouched, so no outbound frame was
produced and no inbound frame consumed. -/
theorem claim3_not_authenticated_no_send (cs : List WsChannel) (st : WsState)
    (hmem : WsChannel.Fills ∈ cs ∨ WsChannel.Orders ∈ cs)
    (hauth : st.client.is_authenticated = false) :
    ∃ chans, subscribe cs st =
      OpResult.err WsError.SocketNotAuthenticated
        { st with client := { st.client with channels := chans } } := by
  have hex : ∃ c ∈ cs, requiresAuth c = true := by
    rcases hmem with h | h
    · exact ⟨WsChannel.Fills, h, by decide⟩
    · exact ⟨WsChannel.Orders, h, by decide⟩
  obtain ⟨acc', ha⟩ := authCheckPush_err_exists st.client.channels hex
  refine ⟨acc', ?_⟩
  unfold subscribe
  rw [hauth, ha]

/-- Witness for C3: subscribing to `Fills` while unauthenticated. -/
theorem claim3_not_authenticated_no_send_witness :
    ∃ chans, subscribe [WsChannel.Fills]
      { client := { channels := [], buf := [], is_authenticated := false }
        inbound := [{ market := none, type := WsMessageType.Subscribed, data := none }]
        sent := [] } =
      OpResult.err WsError.SocketNotAuthenticated
        { client := { channels := chans, buf := [], is_authenticated := false }
          inbound := [{ market := none, type := WsMessageType.Subscribed, data := none }]
          sent := [] } :=
  claim3_not_authenticated_no_send [WsChannel.Fills] _ (Or.inl (by decide)) rfl

/-- Claim C10: when `subscribe` rejects a list whose first
authenticated-only channel follows the prefix `pre` of channels that do not
require authentication, the channels of `pre` have already been appended to
the desired vector when `SocketNotAuthenticated` is returned — the failed
call mutates the desired set and is not atomic. -/
theorem claim10_partial_push (pre : List WsChannel) (c : WsChannel)
    (post : List WsChannel) (st : WsState)
    (hpre : ∀ p ∈ pre, requiresAuth p = false)
    (hc : requiresAuth c = true)
    (hauth : st.client.is_authenticated = false) :
    subscribe (pre ++ c :: post) st =
      OpResult.err WsError.SocketNotAuthenticated
        { st with client := { st.client with
            channels := st.client.channels ++ pre } } := by
  unfold subscribe
  rw [hauth,
    authCheckPush_err_of pre c post st.client.channels
      (fun p hp => by simp [hpre p hp]) (by simp [hc])]

/-- Witness for C10: `subscribe [Trades "B", Fills]` on an unauthenticated
client errors with `Trades "B"` already pushed. -/
theorem claim10_partial_push_witness :
    subscribe [WsChannel.Trades "B", WsChannel.Fills]
      { client := { channels := [], buf := [], is_authenticated := false }
        inbound := []
        sent := [] } =
      OpResult.err WsError.SocketNotAuthenticated
        { client := { channels := [] ++ [WsChannel.Trades "B"], buf := [], is_authenticated := false }
          inbound := []
          sent := [] } :=
  claim10_partial_push [WsChannel.Trades "B"] WsChannel.Fills [] _
    (by intro p hp; rw [List.mem_singleton.mp hp]; decide) (by decide) rfl

/-- Claim C4, amended: for a duplicate-free channel list none of whose
members is already in the desired set, a successful `subscribe` followed
immediately by a successful `unsubscribe` restores the desired channel set
to its pre-subscribe value.  (The restriction is forced: `unsubscribe` uses
`retain`, removing every occurrence, so a prior occurrence of a requested
channel is also removed.) -/
theorem claim4_roundtrip_restores (C : List WsChannel) (st st1 st2 : WsState)
    (hnd : C.Nodup)
    (hdisj : ∀ c ∈ C, c ∉ st.client.channels)
    (h1 : subscribe C st = OpResult.ok st1)
    (h2 : unsubscribe C st1 = OpResult.ok st2) :
    st2.client.channels = st.client.channels := by
  obtain ⟨hs1, _, _⟩ := subscribe_ok_spec h1
  obtain ⟨hs2, _, _⟩ := unsubscribe_ok_spec h2
  rw [hs2, hs1, List.filter_append]
  have e1 : st.client.channels.filter (fun c => !(C.contains c)) = st.client.channels := by
    apply List.filter_eq_self.mpr
    intro a ha
    simp only [Bool.not_eq_true']
    simp
    exact fun haC => hdisj a haC ha
  have e2 : C.filter (fun c => !(C.contains c)) = [] := by
    rw [List.filter_eq_nil_iff]
    intro a ha
    simp
    exact ha
  rw [e1, e2, List.append_nil]

/-- Witness for C4: a fresh client, one channel, confirmations scripted. -/
theorem claim4_roundtrip_restores_witness :
    ({ client := { channels := [], buf := [], is_authenticated := false }
       inbound := []
       sent := [{ op := "subscribe", channel := "trades", market := "A" },
                { op := "unsubscribe", channel := "trades", market := "A" }] } : WsState).client.channels =
    ({ client := { channels := [], buf := [], is_authenticated := false }
       inbound := [{ market := none, type := WsMessageType.Subscribed, data := none },
                   { market := none, type := WsMessageType.Unsubscribed, data := none }]
       sent := [] } : WsState).client.channels :=
  claim4_roundtrip_restores [WsChannel.Trades "A"] _ _ _
    (by decide) (by decide) rfl rfl

/-- Counterexample for C4 as stated over every client state: if the desired
set already holds `Trades "A"`, subscribing and then unsubscribing
`[Trades "A"]` (both confirmed) ends with an empty desired set, not the
original one-element set, because `retain` removes every occurrence. -/
theorem claim4_counterexample :
    subscribe [WsChannel.Trades "A"]
      { client := { channels := [WsChannel.Trades "A"], buf := [], is_authenticated := false }
        inbound := [{ market := none, type := WsMessageType.Subscribed, data := none },
                    { market := none, type := WsMessageType.Unsubscribed, data := none }]
        sent := [] } =
      OpResult.ok
        { client := { channels := [WsChannel.Trades "A", WsChannel.Trades "A"], buf := [], is_authenticated := false }
          inbound := [{ market := none, type := WsMessageType.Unsubscribed, data := none }]
          sent := [{ op := "subscribe", channel := "trades", market := "A" }] } ∧
    unsubscribe [WsChannel.Trades "A"]
      { client := { channels := [WsChannel.Trades "A", WsChannel.Trades "A"], buf := [], is_authenticated := false }
        inbound := [{ market := none, type := WsMessageType.Unsubscribed, data := none }]
        sent := [{ op := "subscribe", channel := "trades", market := "A" }] } =
      OpResult.ok
        { client := { channels := [], buf := [], is_authenticated := false }
          inbound := []
          sent := [{ op := "subscribe", channel := "trades", market := "A" },
                   { op := "unsubscribe", channel := "trades", market := "A" }] } ∧
    ([] : List WsChannel) ≠ [WsChannel.Trades "A"] :=
  ⟨rfl, rfl, by decide⟩

/-- Claim C5, amended: one successful operation preserves the at-most-once
invariant of the desired channel set provided every `subscribe` argument is
duplicate-free and disjoint from the current set; `subscribe` itself never
deduplicates, so the unrestricted claim fails. -/
theorem claim5_nodup_preserved (st st' : WsState) (op : WsOp)
    (hok : applyOp st op = OpResult.ok st')
    (hnd : st.client.channels.Nodup)
    (hsub : ∀ cs, op = WsOp.sub cs → cs.Nodup ∧ ∀ c ∈ cs, c ∉ st.client.channels) :
    st'.client.channels.Nodup := by
  cases op with
  | sub cs =>
    obtain ⟨h1, _, _⟩ := subscribe_ok_spec hok
    rw [h1]
    obtain ⟨hn, hd⟩ := hsub cs rfl
    exact hnd.append hn (fun a ha hb => hd a hb ha)
  | unsub cs =>
    obtain ⟨h1, _, _⟩ := unsubscribe_ok_spec hok
    rw [h1]
    exact hnd.filter _
  | unsubAll =>
    rw [unsubscribe_all_ok_channels hok]
    exact List.nodup_nil

/-- Witness for C5 at a concrete subscribe on a fresh client. -/
theorem claim5_nodup_preserved_witness :
    ({ client := { channels := [WsChannel.Trades "B"], buf := [], is_authenticated := false }
       inbound := []
       sent := [{ op := "subscribe", channel := "trades", market := "B" }] } : WsState).client.channels.Nodup :=
  claim5_nodup_preserved
    { client := { channels := [], buf := [], is_authenticated := false }
      inbound := [{ market := none, type := WsMessageType.Subscribed, data := none }]
      sent := [] } _
    (WsOp.sub [WsChannel.Trades "B"]) rfl (by decide)
    (by
      intro cs hcs
      injection hcs with h2
      rw [← h2]
      exact ⟨by decide, by decide⟩)

/-- Counterexample for C5 as stated: a successful subscribe of the same
channel twice leaves it twice in the desired set. -/
theorem claim5_counterexample :
    subscribe [WsChannel.Trades "B", WsChannel.Trades "B"]
      { client := { channels := [], buf := [], is_authenticated := false }
        inbound := [{ market := none, type := WsMessageType.Subscribed, data := none },
                    { market := none, type := WsMessageType.Subscribed, data := none }]
        sent := [] } =
      OpResult.ok
        { client := { channels := [WsChannel.Trades "B", WsChannel.Trades "B"], buf := [], is_authenticated := false }
          inbound := []
          sent := [{ op := "subscribe", channel := "trades", market := "B" },
                   { op := "subscribe", channel := "trades", market := "B" }] } ∧
    ¬ ([WsChannel.Trades "B", WsChannel.Trades "B"] : List WsChannel).Nodup :=
  ⟨rfl, by decide⟩

/-- Claim C9, amended: when a call fails with
`MissingSubscriptionConfirmation`, a `subscribe` leaves every requested
channel appended to the desired set, an `unsubscribe` leaves the desired set
exactly as before (the removal step is skipped); the authentication flag is
unchanged in both cases, but the delivery buffer may have grown by the
events of the frames consumed during the failed wait, so it is not true
that no other field of the client changes. -/
theorem claim9_timeout_desired_set :
    (∀ (cs : List WsChannel) (st st' : WsState),
      subscribe cs st = OpResult.err WsError.MissingSubscriptionConfirmation st' →
      st'.client.channels = st.client.channels ++ cs ∧
      st'.client.is_authenticated = st.client.is_authenticated ∧
      ∃ extra, st'.client.buf = st.client.buf ++ extra) ∧
    (∀ (cs : List WsChannel) (st st' : WsState),
      unsubscribe cs st = OpResult.err WsError.MissingSubscriptionConfirmation st' →
      st'.client.channels = st.client.channels ∧
      st'.client.is_authenticated = st.client.is_authenticated ∧
      ∃ extra, st'.client.buf = st.client.buf ++ extra) :=
  ⟨fun _ _ _ h => subscribe_err_missing_spec h,
   fun _ _ _ h => unsubscribe_err_missing_spec h⟩

/-- Witness for C9: a subscribe that times out after 100 dataless frames
keeps the channel appended. -/
theorem claim9_timeout_desired_set_witness :
    ({ client := { channels := [WsChannel.Ticker "C"], buf := [], is_authenticated := false }
       inbound := []
       sent := [{ op := "subscribe", channel := "ticker", market := "C" }] } : WsState).client.channels =
      ({ client := { channels := [], buf := [], is_authenticated := false }
         inbound := List.replicate 100 { market := none, type := WsMessageType.Update, data := none }
         sent := [] } : WsState).client.channels ++ [WsChannel.Ticker "C"] ∧
    ({ client := { channels := [WsChannel.Ticker "C"], buf := [], is_authenticated := false }
       inbound := []
       sent := [{ op := "subscribe", channel := "ticker", market := "C" }] } : WsState).client.is_authenticated =
      ({ client := { channels := [], buf := [], is_authenticated := false }
         inbound := List.replicate 100 { market := none, type := WsMessageType.Update, data := none }
         sent := [] } : WsState).client.is_authenticated ∧
    ∃ extra, ([] : List (Option Symbol × EventData)) = [] ++ extra :=
  claim9_timeout_desired_set.1 [WsChannel.Ticker "C"]
    { client := { channels := [], buf := [], is_authenticated := false }
      inbound := List.replicate 100 { market := none, type := WsMessageType.Update, data := none }
      sent := [] }
    { client := { channels := [WsChannel.Ticker "C"], buf := [], is_authenticated := false }
      inbound := []
      sent := [{ op := "subscribe", channel := "ticker", market := "C" }] }
    (by rfl)

/-- Counterexample for the "no other field changes" part of C9 as stated:
a timed-out subscribe whose 100 consumed frames include a data frame grows
the delivery buffer. -/
theorem claim9_counterexample :
    subscribe [WsChannel.Ticker "B"]
      { client := { channels := [], buf := [], is_authenticated := false }
        inbound := { market := some "M", type := WsMessageType.Update,
                     data := some (WsResponseData.Trades [{ id := 7, price := 1, size := 2 }]) } ::
          List.replicate 99 { market := none, type := WsMessageType.Update, data := none }
        sent := [] } =
      OpResult.err WsError.MissingSubscriptionConfirmation
        { client := { channels := [WsChannel.Ticker "B"]
                      buf := [(some "M", EventData.Trade { id := 7, price := 1, size := 2 })]
                      is_authenticated := false }
          inbound := []
          sent := [{ op := "subscribe", channel := "ticker", market := "B" }] } ∧
    [(some "M", EventData.Trade { id := 7, price := 1, size := 2 })] ≠
      ([] : List (Option Symbol × EventData)) :=
  ⟨rfl, by decide⟩

/-- Claim C6: if, after the single subscribe control frame for X is sent,
the next 100 decoded non-Pong frames all lack the matching confirmation tag,
`subscribe [X]` fails with `MissingSubscriptionConfirmation`; exactly one
subscribe frame was appended to the transport, the 100 frames were consumed
and their data events buffered. -/
theorem claim6_missing_confirmation (st : WsState) (X : WsChannel)
    (fs rest : List WsResponse)
    (hin : st.inbound = fs ++ rest)
    (hlen : fs.length = 100)
    (hfs : ∀ r ∈ fs, r.type ≠ WsMessageType.Pong ∧ matchesConfirm true r = false)
    (hauth : requiresAuth X = true → st.client.is_authenticated = true) :
    subscribe [X] st =
      OpResult.err WsError.MissingSubscriptionConfirmation
        { client := { channels := st.client.channels ++ [X]
                      buf := st.client.buf ++ fs.flatMap eventsOfFrame
                      is_authenticated := st.client.is_authenticated }
          inbound := rest
          sent := st.sent ++ [mkControlFrame true X] } := by
  have hac : authCheckPush st.client.is_authenticated [X] st.client.channels =
      (none, st.client.channels ++ [X]) := by
    apply authCheckPush_ok_of
    intro c hc
    rw [List.mem_singleton.mp hc]
    by_cases hX : requiresAuth X = true
    · rw [hauth hX]
      simp
    · simp only [Bool.not_eq_true] at hX
      simp [hX]
  unfold subscribe
  rw [hac]
  exact sou_single_timeout true X _ fs rest hin hlen hfs

set_option maxRecDepth 4000 in
/-- Witness for C6: 100 dataless update frames, no confirmation. -/
theorem claim6_missing_confirmation_witness :
    subscribe [WsChannel.Ticker "W"]
      { client := { channels := [], buf := [], is_authenticated := false }
        inbound := List.replicate 100 { market := none, type := WsMessageType.Update, data := none }
        sent := [] } =
      OpResult.err WsError.MissingSubscriptionConfirmation
        { client := { channels := [WsChannel.Ticker "W"]
                      buf := []
                      is_authenticated := false }
          inbound := []
          sent := [{ op := "subscribe", channel := "ticker", market := "W" }] } :=
  claim6_missing_confirmation _ (WsChannel.Ticker "W")
    (List.replicate 100 { market := none, type := WsMessageType.Update, data := none }) []
    (by simp) (by rfl)
    (by
      intro r hr
      rw [List.eq_of_mem_replicate hr]
      exact ⟨by decide, by decide⟩)
    (by intro h; exact absurd h (by decide))

/-- Claim C7: in either direction — subscribe or unsubscribe — and for any
channel list, every frame observed while one of the call's per-channel
confirmation waits is pending (the `pre` segment of each request, including
waits for later channels of the same call) is enqueued to the delivery
buffer exactly once, in wire-arrival order, a `Trades` payload contributing
one event per trade; the event stream afterwards yields exactly those
buffered events, each exactly once, in order, followed by the events of the
remaining frames.  The last two conjuncts restate this through the public
`subscribe` and `unsubscribe` entry points. -/
theorem claim7_pending_frames_delivered (isSub : Bool) (cs : List WsChannel)
    (ws : List (List WsResponse × WsResponse)) (st : WsState)
    (rest : List WsResponse)
    (hlen : ws.length = cs.length)
    (hin : st.inbound = waitScript ws ++ rest)
    (hpre : ∀ pc ∈ ws, (∀ r ∈ pc.1, matchesConfirm isSub r = false) ∧
      matchesConfirm isSub pc.2 = true ∧
      (pc.1.filter (fun r => r.type != WsMessageType.Pong)).length < 100) :
    subscribe_or_unsubscribe isSub cs st =
      OpResult.ok
        { client := { st.client with
            buf := st.client.buf ++ (ws.flatMap Prod.fst).flatMap eventsOfFrame }
          inbound := rest
          sent := st.sent ++ cs.map (mkControlFrame isSub) } ∧
    (∀ n, takeEvents n
        { client := { st.client with
            buf := st.client.buf ++ (ws.flatMap Prod.fst).flatMap eventsOfFrame }
          inbound := rest
          sent := st.sent ++ cs.map (mkControlFrame isSub) } =
      ((st.client.buf ++ (ws.flatMap Prod.fst).flatMap eventsOfFrame) ++
        rest.flatMap eventsOfFrame).take n) ∧
    (isSub = true →
      (∀ c ∈ cs, requiresAuth c = true → st.client.is_authenticated = true) →
      subscribe cs st =
        OpResult.ok
          { client := { channels := st.client.channels ++ cs
                        buf := st.client.buf ++ (ws.flatMap Prod.fst).flatMap eventsOfFrame
                        is_authenticated := st.client.is_authenticated }
            inbound := rest
            sent := st.sent ++ cs.map (mkControlFrame true) }) ∧
    (isSub = false →
      (∀ c ∈ cs, c ∈ st.client.channels) →
      unsubscribe cs st =
        OpResult.ok
          { client := { channels := st.client.channels.filter (fun c => !(cs.contains c))
                        buf := st.client.buf ++ (ws.flatMap Prod.fst).flatMap eventsOfFrame
                        is_authenticated := st.client.is_authenticated }
            inbound := rest
            sent := st.sent ++ cs.map (mkControlFrame false) }) := by
  refine ⟨sou_script_confirmed isSub cs ws st rest hlen hin hpre,
    fun n => takeEvents_formula n _, ?_, ?_⟩
  · intro hdir hauth
    subst hdir
    have hac : authCheckPush st.client.is_authenticated cs st.client.channels =
        (none, st.client.channels ++ cs) := by
      apply authCheckPush_ok_of
      intro c hc
      by_cases hX : requiresAuth c = true
      · rw [hauth c hc hX]
        simp
      · simp only [Bool.not_eq_true] at hX
        simp [hX]
    unfold subscribe
    rw [hac]
    exact sou_script_confirmed true cs ws _ rest hlen hin hpre
  · intro hdir hmem
    subst hdir
    have hfind : cs.find? (fun c => !(st.client.channels.contains c)) = none := by
      apply List.find?_eq_none.mpr
      intro a ha
      simp
      exact hmem a ha
    unfold unsubscribe
    rw [hfind, sou_script_confirmed false cs ws st rest hlen hin hpre]

/-- Witness for C7: an unsubscribe of two channels, with one data frame
pending before each of the two confirmations; both events are buffered once,
in order, and the stream delivers exactly them. -/
theorem claim7_pending_frames_delivered_witness :
    subscribe_or_unsubscribe false [WsChannel.Trades "A", WsChannel.Ticker "B"]
      { client := { channels := [WsChannel.Trades "A", WsChannel.Ticker "B"], buf := [], is_authenticated := false }
        inbound := [{ market := some "A", type := WsMessageType.Update,
                      data := some (WsResponseData.Trades [{ id := 11, price := 1, size := 1 }]) },
                    { market := none, type := WsMessageType.Unsubscribed, data := none },
                    { market := some "B", type := WsMessageType.Update,
                      data := some (WsResponseData.Trades [{ id := 12, price := 2, size := 2 }]) },
                    { market := none, type := WsMessageType.Unsubscribed, data := none }]
        sent := [] } =
      OpResult.ok
        { client := { channels := [WsChannel.Trades "A", WsChannel.Ticker "B"]
                      buf := [(some "A", EventData.Trade { id := 11, price := 1, size := 1 }),
                              (some "B", EventData.Trade { id := 12, price := 2, size := 2 })]
                      is_authenticated := false }
          inbound := []
          sent := [{ op := "unsubscribe", channel := "trades", market := "A" },
                   { op := "unsubscribe", channel := "ticker", market := "B" }] } ∧
    takeEvents 5
      { client := { channels := [WsChannel.Trades "A", WsChannel.Ticker "B"]
                    buf := [(some "A", EventData.Trade { id := 11, price := 1, size := 1 }),
                            (some "B", EventData.Trade { id := 12, price := 2, size := 2 })]
                    is_authenticated := false }
        inbound := []
        sent := [{ op := "unsubscribe", channel := "trades", market := "A" },
                 { op := "unsubscribe", channel := "ticker", market := "B" }] } =
      [(some "A", EventData.Trade { id := 11, price := 1, size := 1 }),
       (some "B", EventData.Trade { id := 12, price := 2, size := 2 })] ∧
    unsubscribe [WsChannel.Trades "A", WsChannel.Ticker "B"]
      { client := { channels := [WsChannel.Trades "A", WsChannel.Ticker "B"], buf := [], is_authenticated := false }
        inbound := [{ market := some "A", type := WsMessageType.Update,
                      data := some (WsResponseData.Trades [{ id := 11, price := 1, size := 1 }]) },
                    { market := none, type := WsMessageType.Unsubscribed, data := none },
                    { market := some "B", type := WsMessageType.Update,
                      data := some (WsResponseData.Trades [{ id := 12, price := 2, size := 2 }]) },
                    { market := none, type := WsMessageType.Unsubscribed, data := none }]
        sent := [] } =
      OpResult.ok
        { client := { channels := []
                      buf := [(some "A", EventData.Trade { id := 11, price := 1, size := 1 }),
                              (some "B", EventData.Trade { id := 12, price := 2, size := 2 })]
                      is_authenticated := false }
          inbound := []
          sent := [{ op := "unsubscribe", channel := "trades", market := "A" },
                   { op := "unsubscribe", channel := "ticker", market := "B" }] } :=
  have h := claim7_pending_frames_delivered false
    [WsChannel.Trades "A", WsChannel.Ticker "B"]
    [([{ market := some "A", type := WsMessageType.Update,
         data := some (WsResponseData.Trades [{ id := 11, price := 1, size := 1 }]) }],
      { market := none, type := WsMessageType.Unsubscribed, data := none }),
     ([{ market := some "B", type := WsMessageType.Update,
         data := some (WsResponseData.Trades [{ id := 12, price := 2, size := 2 }]) }],
      { market := none, type := WsMessageType.Unsubscribed, data := none })]
    { client := { channels := [WsChannel.Trades "A", WsChannel.Ticker "B"], buf := [], is_authenticated := false }
      inbound := [{ market := some "A", type := WsMessageType.Update,
                    data := some (WsResponseData.Trades [{ id := 11, price := 1, size := 1 }]) },
                  { market := none, type := WsMessageType.Unsubscribed, data := none },
                  { market := some "B", type := WsMessageType.Update,
                    data := some (WsResponseData.Trades [{ id := 12, price := 2, size := 2 }]) },
                  { market := none, type := WsMessageType.Unsubscribed, data := none }]
      sent := [] }
    [] rfl rfl (by decide)
  ⟨h.1, h.2.1 5, h.2.2.2 rfl (by decide)⟩

/-- Claim C8: a `Pong`-tagged inbound frame is invisible everywhere:
`next_response` never returns one (so neither the confirmation matcher nor
`add_to_buffer` ever sees one), the event stream yields the same events with
a `Pong` frame deleted from anywhere in the inbound script, and any frame
consumed as a confirmation carries a matching tag, which is never `Pong`. -/
theorem claim8_pong_never_delivered :
    (∀ (l : List WsResponse) (r : WsResponse) (rest : List WsResponse),
      next_response l = some (r, rest) → r.type ≠ WsMessageType.Pong) ∧
    (∀ (st : WsState) (l1 l2 : List WsResponse) (p : WsResponse),
      p.type = WsMessageType.Pong → st.inbound = l1 ++ p :: l2 →
      ∀ n, takeEvents n st = takeEvents n { st with inbound := l1 ++ l2 }) ∧
    (∀ (subscribe : Bool) (fuel : Nat) (st st' : WsState),
      confirmLoop subscribe fuel st = ConfirmOutcome.confirmed st' →
      ∃ pre r rest, st.inbound = pre ++ r :: rest ∧
        matchesConfirm subscribe r = true ∧ r.type ≠ WsMessageType.Pong) := by
  refine ⟨?_, ?_, ?_⟩
  · intro l r rest h
    obtain ⟨_, _, _, hnp⟩ := next_response_some_spec h
    exact hnp
  · intro st l1 l2 p hp hin n
    rw [takeEvents_formula, takeEvents_formula]
    have hev : eventsOfFrame p = [] := by simp [eventsOfFrame, hp]
    rw [hin]
    simp [hev]
  · intro sub fuel st st' h
    obtain ⟨pre, r, rest, hdec, _, hm, _⟩ := confirmLoop_confirmed_sound sub fuel st st' h
    exact ⟨pre, r, rest, hdec, hm, matchesConfirm_ne_pong hm⟩

/-- Witness for C8: deleting a leading `Pong` from a concrete script leaves
the stream's deliveries unchanged. -/
theorem claim8_pong_never_delivered_witness :
    takeEvents 3
      { client := { channels := [], buf := [], is_authenticated := false }
        inbound := [{ market := none, type := WsMessageType.Pong, data := none },
                    { market := some "M", type := WsMessageType.Update,
                      data := some (WsResponseData.Trades [{ id := 3, price := 1, size := 1 }]) }]
        sent := [] } =
    takeEvents 3
      { client := { channels := [], buf := [], is_authenticated := false }
        inbound := [] ++ [{ market := some "M", type := WsMessageType.Update,
                            data := some (WsResponseData.Trades [{ id := 3, price := 1, size := 1 }]) }]
        sent := [] } :=
  claim8_pong_never_delivered.2.1
    { client := { channels := [], buf := [], is_authenticated := false }
      inbound := [{ market := none, type := WsMessageType.Pong, data := none },
                  { market := some "M", type := WsMessageType.Update,
                    data := some (WsResponseData.Trades [{ id := 3, price := 1, size := 1 }]) }]
      sent := [] }
    [] [{ market := some "M", type := WsMessageType.Update,
          data := some (WsResponseData.Trades [{ id := 3, price := 1, size := 1 }]) }]
    { market := none, type := WsMessageType.Pong, data := none }
    rfl rfl 3

end Ftx
